import Mathlib

/-!
Verification development for `src/utils/order_fetcher_optimized.py`
(xianyu-super-butler).

The module's pure logic is shallowly embedded in Lean:

* Python strings are `String` / `List Char`; Python `dict.get` absence is
  `Option` with `Option.getD` at each read site.
* `float(...)` is modelled by `pyFloat`, a decimal/scientific literal
  parser into `ℚ` (non-finite forms such as `inf`/`nan`, underscores
  between digits and non-ASCII digits are outside the model; a currency
  amount never takes those shapes).
* Effectful collaborators (browser pool, navigation, interception, DOM
  element queries, persistent store) are an explicit environment
  (`FetchEnv`, `DomPage`): each field records what the collaborator would
  have returned during one session.  The session body
  `fetch_order_complete`, the parsers `parse_api_response` /
  `parse_dom_content`, the status heuristic `get_order_status`, the batch
  runner `process_orders_batch` and the chunked runner
  `process_orders_in_batches` are translated statement by statement from
  the source.
-/

namespace OrderFetcher

/-- A hypothetical text of `l` begins with the pattern `p`
(`str.startswith` / prefix test on character lists). -/
def startsWithL : List Char → List Char → Bool
  | _, [] => true
  | [], _ :: _ => false
  | c :: l, p :: ps => c = p && startsWithL l ps

/-- JavaScript `hay.includes(pat)` / Python `pat in hay` on character
lists: `pat` occurs contiguously inside `hay`. -/
def containsL : List Char → List Char → Bool
  | [], pat => startsWithL [] pat
  | c :: l, pat => startsWithL (c :: l) pat || containsL l pat

/-- Python `str.strip()` / JS `trim()`: drop surrounding whitespace. -/
def trimL (l : List Char) : List Char :=
  ((l.dropWhile Char.isWhitespace).reverse.dropWhile Char.isWhitespace).reverse

/-- String-level wrapper for `trimL`. -/
def strTrim (s : String) : String := String.mk (trimL s.data)

/-- Whether a string contains a given character (`':' in s`). -/
def containsChar (c : Char) (s : String) : Bool := s.data.any (· = c)

/-- Python `s.split(c, 1)`: the parts before and after the first
occurrence of `c` (both empty-ish when `c` is absent; only used on
strings known to contain `c`, matching the guarded call sites). -/
def splitFirst (c : Char) : List Char → List Char × List Char
  | [] => ([], [])
  | x :: xs =>
    if x = c then ([], xs)
    else
      let p := splitFirst c xs
      (x :: p.1, p.2)

/-- Numeric value of a digit string. -/
def digitsToNat (l : List Char) : ℕ :=
  l.foldl (fun a c => a * 10 + (c.toNat - 48)) 0

/-- Line 88: `str(amount).replace('¥','').replace('￥','').replace('$','')` —
each currency glyph is a single character, so the three substring
replacements delete exactly these characters. -/
def stripCurrency (l : List Char) : List Char :=
  l.filter (fun c => !(c = '¥' || c = '￥' || c = '$'))

/-- Exact value of a parsed decimal literal, kept as an integer numerator
over a power of ten so that comparisons stay kernel-computable; its
rational value is `Dec10.toRat`. -/
structure Dec10 where
  num : ℤ
  pow10 : ℕ
deriving DecidableEq

/-- The rational value `num / 10 ^ pow10` denoted by a `Dec10`. -/
def Dec10.toRat (v : Dec10) : ℚ := (v.num : ℚ) / 10 ^ v.pow10

/-- Exponent suffix of a Python float literal: either nothing remains, or
`e`/`E`, an optional sign and a nonempty digit run consuming the rest;
the exponent scales the mantissa by a power of ten. -/
def parseExpPart (v : Dec10) : List Char → Option Dec10
  | [] => some v
  | c :: rest =>
    if c = 'e' ∨ c = 'E' then
      let signed : Bool × List Char :=
        match rest with
        | '+' :: t => (false, t)
        | '-' :: t => (true, t)
        | t => (false, t)
      let ds := signed.2.takeWhile Char.isDigit
      if ds.isEmpty ∨ ¬(signed.2.dropWhile Char.isDigit).isEmpty then none
      else if signed.1 then some ⟨v.num, v.pow10 + digitsToNat ds⟩
      else some ⟨v.num * (10 : ℤ) ^ digitsToNat ds, v.pow10⟩
    else none

/-- Python `float(...)` on an already-stripped decimal or scientific
literal: optional sign, then `digits[.digits]` or `.digits`, then an
optional exponent; anything else raises `ValueError`, modelled as
`none`.  The result is the exact decimal value. -/
def pyFloat (l : List Char) : Option Dec10 :=
  let signed : Bool × List Char :=
    match l with
    | '+' :: t => (false, t)
    | '-' :: t => (true, t)
    | t => (false, t)
  let intDs := signed.2.takeWhile Char.isDigit
  let s2 := signed.2.dropWhile Char.isDigit
  let core : Option (Dec10 × List Char) :=
    match s2 with
    | '.' :: r =>
      let fracDs := r.takeWhile Char.isDigit
      if intDs.isEmpty ∧ fracDs.isEmpty then none
      else
        some (⟨(digitsToNat intDs * 10 ^ fracDs.length + digitsToNat fracDs : ℕ),
          fracDs.length⟩, r.dropWhile Char.isDigit)
    | _ =>
      if intDs.isEmpty then none else some (⟨(digitsToNat intDs : ℕ), 0⟩, s2)
  match core with
  | none => none
  | some (m, rest) =>
    (parseExpPart m rest).map (fun v => if signed.1 then ⟨-v.num, v.pow10⟩ else v)

/-- The parsed float as a rational number. -/
def pyFloatRat (l : List Char) : Option ℚ := (pyFloat l).map Dec10.toRat

/-- Lines 84–93: the stored amount (`existing_order.get('amount', '')`)
is valid iff it is truthy and, with currency glyphs removed and
whitespace stripped, `float` parses it to a value `> 0`.  The sign test
is done on the numerator, which has the sign of the denoted float value
(`amount_valid_iff` below states the `> 0` reading on `ℚ`). -/
def amount_valid (a : Option String) : Bool :=
  let amount := a.getD ""
  if amount = "" then false
  else
    match pyFloat (trimL (stripCurrency amount.data)) with
    | some v => decide (0 < v.num)
    | none => false

/-! ## Status heuristic (`_get_order_status`, lines 523–624) -/

/-- Computed style of a text node's parent element:
`parseInt(style.fontSize) || 0` and `parseInt(style.fontWeight) || 0`. -/
structure NodeStyle where
  fontSize : ℕ
  fontWeight : ℕ
deriving DecidableEq

/-- One text node visited by the in-page tree walker; `parent` is `none`
when the node has no parent element. -/
structure TextNode where
  text : String
  parent : Option NodeStyle
deriving DecidableEq

/-- One row of the in-page `statusMap` table. -/
structure StatusEntry where
  phrase : String
  status : String
  priority : ℕ
deriving DecidableEq

/-- The ranked phrase table of `_get_order_status`, in source order. -/
def statusMap : List StatusEntry := [
  ⟨"买家取消了订单", "cancelled", 100⟩,
  ⟨"卖家取消了订单", "cancelled", 100⟩,
  ⟨"交易关闭", "cancelled", 90⟩,
  ⟨"订单已关闭", "cancelled", 90⟩,
  ⟨"卖家已发货，待买家确认收货", "shipped", 85⟩,
  ⟨"已发货，待买家确认收货", "shipped", 80⟩,
  ⟨"卖家已发货", "shipped", 75⟩,
  ⟨"已发货", "shipped", 70⟩,
  ⟨"待买家确认收货", "shipped", 65⟩,
  ⟨"买家已付款，请尽快发货", "pending_ship", 60⟩,
  ⟨"买家已付款", "pending_ship", 55⟩,
  ⟨"待发货", "pending_ship", 50⟩,
  ⟨"等待卖家发货", "pending_ship", 45⟩,
  ⟨"交易成功", "completed", 40⟩,
  ⟨"订单完成", "completed", 35⟩,
  ⟨"交易完成", "completed", 30⟩,
  ⟨"退款中", "refunding", 25⟩,
  ⟨"申请退款", "refunding", 20⟩,
  ⟨"处理中", "processing", 10⟩]

/-- Per-node outcome of the scan loop body: if the trimmed text has an
admissible length and contains a ranked phrase (the `break` keeps the
first table row that matches, i.e. the highest-priority one), and the
node has a parent element, yield that row's status and the score
`priority + fontSize + (fontWeight > 500 ? 5 : 0)`. -/
def nodeMatch (n : TextNode) : Option (String × ℕ) :=
  let t := trimL n.text.data
  if t.length < 2 ∨ t.length > 100 then none
  else
    match statusMap.find? (fun e => containsL t e.phrase.data) with
    | none => none
    | some e =>
      match n.parent with
      | none => none
      | some st =>
        some (e.status, e.priority + st.fontSize + (if st.fontWeight > 500 then 5 else 0))

/-- Keep the strictly better candidate (`score > bestScore`), so the
earliest node wins ties. -/
def pickBest (acc : Option (String × ℕ)) (m : String × ℕ) : Option (String × ℕ) :=
  match acc with
  | none => some m
  | some b => if b.2 < m.2 then some m else acc

/-- One iteration of the tree-walker loop. -/
def scanStep (acc : Option (String × ℕ)) (n : TextNode) : Option (String × ℕ) :=
  match nodeMatch n with
  | none => acc
  | some m => pickBest acc m

/-- The status heuristic: walk at most the first 5000 text nodes, keep
the single highest-scoring phrase match, return its status, or
`unknown` when nothing matched. -/
def get_order_status (nodes : List TextNode) : String :=
  match (nodes.take 5000).foldl scanStep none with
  | some m => m.1
  | none => "unknown"

/-! ## API response parsing (`_parse_api_response`, lines 277–367) -/

/-- The raw `status` field of the payload: a JSON string or number. -/
inductive StatusVal where
  | str (s : String)
  | num (n : ℤ)
deriving DecidableEq

/-- Line 290: the static provider status-code table. -/
def STATUS_CODE_MAP : List (String × String) := [
  ("1", "processing"),
  ("2", "pending_ship"),
  ("3", "shipped"),
  ("4", "completed"),
  ("7", "refunding"),
  ("8", "cancelled"),
  ("9", "refunding"),
  ("10", "cancelled"),
  ("11", "completed"),
  ("12", "cancelled")]

/-- The closed status enum checked on line 308. -/
def statusEnum : List String :=
  ["processing", "pending_ship", "shipped", "completed", "cancelled", "refunding", "unknown"]

/-- Python `str.isdigit()` restricted to ASCII digits: nonempty and all
digits. -/
def isDigitStr (s : String) : Bool := !s.data.isEmpty && s.data.all Char.isDigit

/-- Lines 304–316: resolve the raw provider status to a status string:
an enum member is kept, a digit string or a number goes through the code
table (defaulting to `unknown`), and any other string is kept as-is. -/
def resolveApiStatus : StatusVal → String
  | .str s =>
    if s ∈ statusEnum then s
    else if isDigitStr s then (STATUS_CODE_MAP.lookup s).getD "unknown"
    else s
  | .num n => (STATUS_CODE_MAP.lookup (toString n)).getD "unknown"

/-- The `addressInfo` block of an `orderInfoVO` component; `none` on a
field models an absent key (`dict.get` default applies). -/
structure AddressInfo where
  receiverName : Option String := none
  receiverMobile : Option String := none
  province : Option String := none
  city : Option String := none
  district : Option String := none
  detailAddress : Option String := none
  fullAddress : Option String := none
deriving DecidableEq

/-- One entry of the payload's `components` list, with the nested
`data.itemInfo` / `data.priceInfo.amount` / `data.addressInfo` /
`data.buyerInfo` reads flattened to the fields the parser extracts;
`addressInfo = none` models an absent or empty (falsy) block. -/
structure OrderComponent where
  render : Option String := none
  itemTitle : Option String := none
  itemId : Option String := none
  priceValue : Option String := none
  addressInfo : Option AddressInfo := none
  buyerUserId : Option String := none
deriving DecidableEq

/-- One entry of `bottomBarVO.buttonList`. -/
structure ActionButton where
  tradeAction : Option String := none
deriving DecidableEq

/-- The decoded `data` object of the intercepted order-detail payload. -/
structure ApiOrderData where
  status : Option StatusVal := none
  utStatusName : Option String := none
  components : List OrderComponent := []
  buttonList : List ActionButton := []
deriving DecidableEq

/-- The partial-field dictionary built by `_parse_api_response`; `none`
models a key the parser did not set. -/
structure ApiData where
  order_status : Option String := none
  status_text : Option String := none
  item_title : Option String := none
  item_id : Option String := none
  price : Option String := none
  receiver_name : Option String := none
  receiver_phone : Option String := none
  receiver_address : Option String := none
  receiver_city : Option String := none
  buyer_id : Option String := none
  can_rate : Option Bool := none
deriving DecidableEq

/-- Lines 277–367 (`_parse_api_response`): resolve the status, read the
display name, walk the `orderInfoVO` components (later components
overwrite earlier ones), and derive `can_rate` from the bottom-bar
buttons.  `receiver_address` prefers the pre-joined `fullAddress` and
otherwise space-joins the nonempty address parts; when all parts are
empty the key is left untouched. -/
def parse_api_response (d : ApiOrderData) : ApiData :=
  let base : ApiData := {
    order_status := some (resolveApiStatus (d.status.getD (.str "unknown"))),
    status_text := some (d.utStatusName.getD "") }
  let withComponents := d.components.foldl (fun acc c =>
    if c.render = some "orderInfoVO" then
      let acc1 := { acc with
        item_title := some (c.itemTitle.getD ""),
        item_id := some (c.itemId.getD ""),
        price := some (c.priceValue.getD "") }
      let acc2 :=
        match c.addressInfo with
        | none => acc1
        | some a =>
          let acc3 := { acc1 with
            receiver_name := some (a.receiverName.getD ""),
            receiver_phone := some (a.receiverMobile.getD ""),
            receiver_city := some (a.city.getD "") }
          let full := a.fullAddress.getD ""
          let province := a.province.getD ""
          let city := a.city.getD ""
          let district := a.district.getD ""
          let detail := a.detailAddress.getD ""
          let joined :=
            String.intercalate " " (([province, city, district, detail]).filter (· ≠ ""))
          if full ≠ "" then { acc3 with receiver_address := some full }
          else if province ≠ "" ∨ city ≠ "" ∨ district ≠ "" ∨ detail ≠ "" then
            { acc3 with receiver_address := some joined }
          else acc3
      { acc2 with buyer_id := some (c.buyerUserId.getD "") }
    else acc) base
  { withComponents with
    can_rate := some (d.buttonList.any (fun b => b.tradeAction = some "RATE")) }

/-! ## DOM parsing (`_parse_dom_content`, lines 369–435) -/

/-- What the page collaborator would answer during one DOM scan.
`amountEl` is the bold-number query: `none` when the element is absent,
`some t` its `text_content()` (itself optional).  `timeText` and the
`recv*` fields are the net results of the `_get_order_time` /
`_get_receiver_info` sub-extractions (selector- and regex-driven element
reads, abstracted as environment data).  `skuTexts` lists the text
contents of the `sku` elements.  `statusNodes` are the text nodes the
in-page status scan would visit.  `earlyError` models a selector/script
error raised at the start of `_parse_dom_content`, which the
`except` swallows after an empty dictionary was built. -/
structure DomPage where
  earlyError : Bool := false
  amountEl : Option (Option String) := none
  timeText : Option String := none
  recvName : Option String := none
  recvPhone : Option String := none
  recvAddr : Option String := none
  skuTexts : List (Option String) := []
  statusNodes : List TextNode := []
deriving DecidableEq

/-- The partial-field dictionary built by `_parse_dom_content`. -/
structure DomData where
  amount : Option String := none
  order_time : Option String := none
  receiver_name : Option String := none
  receiver_phone : Option String := none
  receiver_address : Option String := none
  spec_name : Option String := none
  spec_value : Option String := none
  quantity : Option String := none
  order_status_dom : Option String := none
deriving DecidableEq

/-- Lines 369–435 (`_parse_dom_content`): trim the amount text when the
element yielded truthy text; read the first `sku` element as
`spec_name: spec_value` when it contains a colon; read the second as the
quantity, stripping a leading label (text before the first colon) and a
leading `x`; default the quantity to `"1"` when the key is still absent;
and run the status heuristic.  An early error yields the empty
dictionary. -/
def parse_dom_content (p : DomPage) : DomData :=
  if p.earlyError then {} else
  let amount : Option String :=
    match p.amountEl with
    | some (some t) => if t ≠ "" then some (strTrim t) else none
    | _ => none
  let specPair : Option (String × String) :=
    match p.skuTexts.head? with
    | some (some t) =>
      if t ≠ "" ∧ containsChar ':' t then
        let pr := splitFirst ':' t.data
        some (String.mk (trimL pr.1), String.mk (trimL pr.2))
      else none
    | _ => none
  let qty : Option String :=
    match p.skuTexts[1]? with
    | some (some t) =>
      if t ≠ "" then
        let v := if containsChar ':' t then trimL (splitFirst ':' t.data).2 else trimL t.data
        let v2 := match v with
          | 'x' :: rest => rest
          | _ => v
        some (String.mk v2)
      else none
    | _ => none
  { amount := amount,
    order_time := p.timeText,
    receiver_name := p.recvName,
    receiver_phone := p.recvPhone,
    receiver_address := p.recvAddr,
    spec_name := specPair.map Prod.fst,
    spec_value := specPair.map Prod.snd,
    quantity := some (qty.getD "1"),
    order_status_dom := some (get_order_status p.statusNodes) }

/-! ## The fetch session (`fetch_order_complete`, lines 49–275) -/

/-- A stored record from the persistent store (`db_manager` row), read
through `dict.get`: every field but the primary key may be absent. -/
structure StoredOrder where
  order_id : String
  order_status : Option String := none
  status_text : Option String := none
  item_title : Option String := none
  spec_name : Option String := none
  spec_value : Option String := none
  quantity : Option String := none
  amount : Option String := none
  created_at : Option String := none
  receiver_name : Option String := none
  receiver_phone : Option String := none
  receiver_address : Option String := none
  receiver_city : Option String := none
  buyer_id : Option String := none
  item_id : Option String := none
  can_rate : Option Bool := none
deriving DecidableEq

/-- The output record of one fetch session.  `api_status` / `dom_status`
are `Option` because the cache path does not put these diagnostic keys
in the dictionary at all. -/
structure Record where
  order_id : String
  url : String
  title : String
  timestamp : ℕ
  from_cache : Bool
  api_status : Option String
  dom_status : Option String
  order_status : String
  status_text : String
  item_title : String
  buyer_id : String
  item_id : String
  can_rate : Bool
  spec_name : String
  spec_value : String
  quantity : String
  amount : String
  order_time : String
  receiver_name : String
  receiver_phone : String
  receiver_address : String
  receiver_city : String
deriving DecidableEq

/-- The canonical order-detail URL (line 176). -/
def orderUrl (order_id : String) : String :=
  "https://www.goofish.com/order-detail?orderId=" ++ order_id ++ "&role=seller"

/-- Lines 105–127: the stored record reshaped into the current schema on
a cache hit (`from_cache = True`, no diagnostic keys; note the
empty-string default on `quantity` and that `order_time` echoes the
stored `created_at`). -/
def cacheRecord (order_id : String) (e : StoredOrder) (now : ℕ) : Record :=
  { order_id := e.order_id
    url := orderUrl order_id
    title := "订单详情 - " ++ order_id
    order_status := e.order_status.getD "unknown"
    status_text := e.status_text.getD ""
    item_title := e.item_title.getD ""
    spec_name := e.spec_name.getD ""
    spec_value := e.spec_value.getD ""
    quantity := e.quantity.getD ""
    amount := e.amount.getD ""
    order_time := e.created_at.getD ""
    receiver_name := e.receiver_name.getD ""
    receiver_phone := e.receiver_phone.getD ""
    receiver_address := e.receiver_address.getD ""
    receiver_city := e.receiver_city.getD ""
    buyer_id := e.buyer_id.getD ""
    item_id := e.item_id.getD ""
    can_rate := e.can_rate.getD false
    timestamp := now
    from_cache := true
    api_status := none
    dom_status := none }

/-- The decision of the cache-validity gate. -/
inductive CacheDecision where
  | useCache (r : Record)
  | mustFetch
deriving DecidableEq

/-- Lines 82–131: absent record, forced refresh, or invalid amount all
fall through to a live fetch; otherwise the reshaped stored record is
returned. -/
def cacheGate (existing : Option StoredOrder) (force_refresh : Bool) (order_id : String)
    (now : ℕ) : CacheDecision :=
  match existing with
  | none => .mustFetch
  | some e =>
    if amount_valid e.amount && !force_refresh then .useCache (cacheRecord order_id e now)
    else .mustFetch

/-- One intercepted order-detail payload (`ret` list plus decoded
`data`); an absent or empty `ret` is the falsy case of line 204. -/
structure ApiPayload where
  ret : List String
  data : ApiOrderData
deriving DecidableEq

/-- Line 204: `api_result.get('ret') and api_result['ret'][0].startswith('SUCCESS')`. -/
def payloadSuccess (p : ApiPayload) : Bool :=
  match p.ret with
  | [] => false
  | r :: _ => startsWithL r.data "SUCCESS".data

/-- Outcome of the store read at line 80: a value, or a raised error. -/
inductive StoreResult where
  | ok (existing : Option StoredOrder)
  | err
deriving DecidableEq

/-- Everything one session observes from its collaborators: the store
read, whether the pool yielded a browser, the navigation response status
(`none` for a missing response or a navigation error), the intercepted
payload list, the settled page, its title, and the fetch instant. -/
structure FetchEnv where
  store : StoreResult := .ok none
  browserOk : Bool := false
  nav : Option ℕ := none
  apiResponses : List ApiPayload := []
  page : DomPage := {}
  pageTitle : String := ""
  now : ℕ := 0
deriving DecidableEq

/-- Lines 198–211: the API-derived partial fields — the first
intercepted payload when its `ret` marks success, else the empty
dictionary. -/
def apiDataOfEnv (env : FetchEnv) : ApiData :=
  match env.apiResponses.head? with
  | none => {}
  | some p => if payloadSuccess p then parse_api_response p.data else {}

/-- Lines 218–256: build the fresh record.  Status fusion prefers a
truthy DOM status different from `unknown`; both raw signals become the
`api_status` / `dom_status` diagnostics, with `not_detected` standing in
for a missing DOM signal.  DOM values win for spec, quantity, amount,
time and receiver fields, with API fallbacks where the source has
them. -/
def buildRecord (order_id : String) (env : FetchEnv) (api : ApiData) (dom : DomData) : Record :=
  let apiStatus := api.order_status.getD "unknown"
  { order_id := order_id
    url := orderUrl order_id
    title := env.pageTitle
    timestamp := env.now
    from_cache := false
    api_status := some apiStatus
    dom_status := some (match dom.order_status_dom with
      | some s => if s ≠ "" then s else "not_detected"
      | none => "not_detected")
    order_status := (match dom.order_status_dom with
      | some s => if s ≠ "" ∧ s ≠ "unknown" then s else apiStatus
      | none => apiStatus)
    status_text := api.status_text.getD ""
    item_title := api.item_title.getD ""
    buyer_id := api.buyer_id.getD ""
    item_id := api.item_id.getD ""
    can_rate := api.can_rate.getD false
    spec_name := dom.spec_name.getD ""
    spec_value := dom.spec_value.getD ""
    quantity := dom.quantity.getD "1"
    amount := dom.amount.getD (api.price.getD "")
    order_time := dom.order_time.getD ""
    receiver_name := dom.receiver_name.getD (api.receiver_name.getD "")
    receiver_phone := dom.receiver_phone.getD (api.receiver_phone.getD "")
    receiver_address := dom.receiver_address.getD (api.receiver_address.getD "")
    receiver_city := api.receiver_city.getD "" }

/-- Lines 133–261: the live-fetch half of the session — pool acquisition
failure or a missing/non-200 navigation response return `None`;
otherwise the API and DOM partial fields are parsed and fused. -/
def liveFetch (env : FetchEnv) (order_id : String) : Option Record :=
  if env.browserOk = false then none
  else
    match env.nav with
    | none => none
    | some status =>
      if status ≠ 200 then none
      else some (buildRecord order_id env (apiDataOfEnv env) (parse_dom_content env.page))

/-- Lines 49–275 (`fetch_order_complete`): the whole session body runs
under one `try`; a store-read error is caught by the outer handler and
the session returns `None` (line 263) — it never reaches the live
fetch.  Otherwise the cache gate decides between the reshaped cached
record and the live fetch. -/
def fetch_order_complete (env : FetchEnv) (order_id : String) (force_refresh : Bool) :
    Option Record :=
  match env.store with
  | .err => none
  | .ok existing =>
    match cacheGate existing force_refresh order_id env.now with
    | .useCache r => some r
    | .mustFetch => liveFetch env order_id

/-! ## Batch and chunked processing (lines 654–848) -/

/-- How one order's task ends: the session runs to completion
(returning its `Option Record`), or an exception escapes it
(e.g. mid-navigation) and is caught by `process_single_order` /
`asyncio.gather(..., return_exceptions=True)` — both convert it into the
same failure entry. -/
inductive TaskFate where
  | normal
  | raised (msg : String)
deriving DecidableEq

/-- One order submitted to a batch: its id, the session environment its
collaborators would present, and its task fate. -/
structure OrderTask where
  oid : String
  env : FetchEnv := {}
  fate : TaskFate := .normal
deriving DecidableEq

/-- One element of a batch result list: a success record, or the
structured failure dictionary `{'order_id': ..., 'success': False,
'error': ...}`. -/
inductive BatchEntry where
  | success (r : Record)
  | failure (order_id : String) (error : String)
deriving DecidableEq

/-- Lines 688–734 (`process_single_order`): a raised exception becomes a
failure entry carrying the order id and the message; a `None` session
result becomes the generic failure entry; a record is passed through. -/
def perOrderEntry (t : OrderTask) (force_refresh : Bool) : BatchEntry :=
  match t.fate with
  | .raised m => .failure t.oid m
  | .normal =>
    match fetch_order_complete t.env t.oid force_refresh with
    | some r => .success r
    | none => .failure t.oid "获取订单信息失败"

/-- Lines 654–768 (`process_orders_batch`): every order yields exactly
one entry, in input order (`asyncio.gather` preserves task order; the
semaphore only bounds concurrency and is invisible to the result
list). -/
def process_orders_batch (tasks : List OrderTask) (force_refresh : Bool) : List BatchEntry :=
  tasks.map (fun t => perOrderEntry t force_refresh)

/-- Observable scheduling events of the chunked runner: one bounded
batch run (with the chunk's order ids), or one inter-chunk sleep. -/
inductive BatchEvent where
  | runBatch (ids : List String)
  | delay (seconds : ℚ)
deriving DecidableEq

/-- Whether an event is an inter-chunk sleep. -/
def isDelayEvent : BatchEvent → Bool
  | .delay _ => true
  | .runBatch _ => false

/-- Lines 812–815: the slices `order_ids[k*S : min((k+1)*S, N)]` for
`k < total_batches = (N + S - 1) // S`. -/
def pyChunks (tasks : List OrderTask) (S : ℕ) : List (List OrderTask) :=
  (List.range ((tasks.length + S - 1) / S)).map (fun k => (tasks.drop (k * S)).take S)

/-- Lines 771–848 (`process_orders_in_batches`): run the chunks through
`process_orders_batch` strictly sequentially, sleeping `batch_delay`
after every chunk but the last, and extend one aggregate result list.
The call at line 821 passes no `force_refresh`, so the batch runner uses
its default `False`.  The second component is the event trace. -/
def process_orders_in_batches (tasks : List OrderTask) (batch_size : ℕ) (batch_delay : ℚ) :
    List BatchEntry × List BatchEvent :=
  let total_batches := (tasks.length + batch_size - 1) / batch_size
  (List.range total_batches).foldl (fun acc k =>
    let chunk := (tasks.drop (k * batch_size)).take batch_size
    (acc.1 ++ process_orders_batch chunk false,
     acc.2 ++ (BatchEvent.runBatch (chunk.map OrderTask.oid) ::
       (if k < total_batches - 1 then [BatchEvent.delay batch_delay] else []))))
    ([], [])

/-- Reference shape of the chunked runner's event trace, written from
the specification's words: run each chunk in order, with exactly one
delay between consecutive chunks and none after the final one. -/
def eventsSpec (chunkIds : List (List String)) (d : ℚ) : List BatchEvent :=
  match chunkIds with
  | [] => []
  | [c] => [.runBatch c]
  | c :: c2 :: rest => .runBatch c :: .delay d :: eventsSpec (c2 :: rest) d

/-- Chunk-list view of the chunked runner, structurally recursive on the
chunk list; `process_orders_in_batches` is proved equal to it below. -/
def runChunks (chunks : List (List OrderTask)) (d : ℚ) : List BatchEntry × List BatchEvent :=
  match chunks with
  | [] => ([], [])
  | [c] => (process_orders_batch c false, [.runBatch (c.map OrderTask.oid)])
  | c :: c2 :: rest =>
    let r := runChunks (c2 :: rest) d
    (process_orders_batch c false ++ r.1,
     .runBatch (c.map OrderTask.oid) :: .delay d :: r.2)

/-! ## Concrete sample data for the claim instances -/

/-- A stored order with a currency-prefixed positive amount. -/
def c1Order : StoredOrder := { order_id := "A1", amount := some "¥12.50" }

/-- A DOM partial-field dictionary whose scan detected `shipped`. -/
def c2Dom : DomData := { order_status_dom := some "shipped" }

/-- An API partial-field dictionary reporting `pending_ship`. -/
def c2Api : ApiData := { order_status := some "pending_ship" }

/-- Stored orders behind the tasks of the three-order batch example. -/
def c3OrderA : StoredOrder := { order_id := "A", amount := some "3" }

/-- Second cached sibling of the batch example. -/
def c3OrderC : StoredOrder := { order_id := "C", amount := some "7" }

/-- The batch `[A, B, C]` where B's session raises mid-navigation. -/
def c3Tasks : List OrderTask := [
  { oid := "A", env := { store := .ok (some c3OrderA), now := 11 } },
  { oid := "B", fate := .raised "mid-navigation" },
  { oid := "C", env := { store := .ok (some c3OrderC), now := 13 } }]

/-- An intercepted payload whose raw status is a non-digit string
outside the closed enum. -/
def c5Payload : ApiPayload :=
  { ret := ["SUCCESS::调用成功"], data := { status := some (.str "WEIRD") } }

/-- A session environment delivering the `WEIRD` payload, with the DOM
scan erroring out (so the API status wins the fusion). -/
def c5Env : FetchEnv :=
  { store := .ok none, browserOk := true, nav := some 200,
    apiResponses := [c5Payload], page := { earlyError := true },
    pageTitle := "订单详情", now := 5 }

/-- A session whose store read raises but whose live fetch would
succeed. -/
def c6Env : FetchEnv :=
  { store := .err, browserOk := true, nav := some 200, pageTitle := "t", now := 3 }

/-- A stored order with a valid amount but no stored quantity. -/
def c7Order : StoredOrder := { order_id := "C7", amount := some "5" }

/-- The environment serving `c7Order` from the store. -/
def c7Env : FetchEnv := { store := .ok (some c7Order), now := 1 }

/-- Twenty-five trivial order tasks, for the chunking example. -/
def c8Tasks : List OrderTask := (List.range 25).map (fun n => { oid := toString n })

/-- A stored order reachable through the chunked interface. -/
def c9Order : StoredOrder := { order_id := "D", amount := some "¥8" }

/-- A task whose environment carries `c9Order` in the store. -/
def c9Task : OrderTask := { oid := "D", env := { store := .ok (some c9Order), now := 4 } }

/-- A fresh-fetch environment with an empty page. -/
def c10Env : FetchEnv :=
  { store := .ok none, browserOk := true, nav := some 200, pageTitle := "x", now := 2 }

end OrderFetcher

namespace OrderFetcher

/-- The numerator carries the sign of the denoted decimal value. -/
lemma Dec10.pos_toRat_iff (v : Dec10) : 0 < v.toRat ↔ 0 < v.num := by
  unfold Dec10.toRat
  have h10 : (0 : ℚ) < 10 ^ v.pow10 := by positivity
  rw [div_pos_iff]
  constructor
  · rintro (⟨h, _⟩ | ⟨_, hb⟩)
    · exact_mod_cast h
    · linarith
  · intro h
    exact Or.inl ⟨by exact_mod_cast h, h10⟩

/-- The stored amount is valid exactly when the glyph-stripped, trimmed
text parses as a float whose value is strictly positive. -/
lemma amount_valid_char (a : Option String) :
    amount_valid a = true ↔
      ∃ q, pyFloatRat (trimL (stripCurrency (a.getD "").data)) = some q ∧ 0 < q := by
  unfold amount_valid pyFloatRat
  by_cases h : a.getD "" = ""
  · rw [h]
    simp only [if_pos rfl]
    have hnone : pyFloat (trimL (stripCurrency ("" : String).data)) = none := rfl
    simp [hnone]
  · simp only [if_neg h]
    cases hp : pyFloat (trimL (stripCurrency (a.getD "").data)) with
    | none => simp [hp]
    | some v => simp [hp, Dec10.pos_toRat_iff]

/-- The cache gate yields `useCache` only with the reshaped stored
record, and only on a present record, unforced refresh, valid amount. -/
lemma cacheGate_useCache_iff (existing : Option StoredOrder) (force_refresh : Bool)
    (order_id : String) (now : ℕ) (r : Record) :
    cacheGate existing force_refresh order_id now = .useCache r ↔
      ∃ e, existing = some e ∧ force_refresh = false ∧ amount_valid e.amount = true ∧
        r = cacheRecord order_id e now := by
  cases existing with
  | none =>
    simp only [cacheGate]
    constructor
    · intro h; exact CacheDecision.noConfusion h
    · rintro ⟨e, he, -⟩; exact Option.noConfusion he
  | some e =>
    simp only [cacheGate]
    by_cases hc : (amount_valid e.amount && !force_refresh) = true
    · rw [if_pos hc]
      rcases Bool.and_eq_true_iff.mp hc with ⟨h1, h2⟩
      have h2' : force_refresh = false := by
        cases force_refresh <;> simp_all
      constructor
      · intro h
        refine ⟨e, rfl, h2', h1, ?_⟩
        injection h with h'
        exact h'.symm
      · rintro ⟨e2, he2, -, -, hr⟩
        injection he2 with he2'
        subst he2'
        rw [hr]
    · rw [if_neg hc]
      constructor
      · intro h; exact CacheDecision.noConfusion h
      · rintro ⟨e2, he2, hf, hv, -⟩
        injection he2 with he2'
        subst he2'
        exact absurd (by rw [hv, hf]; rfl) hc

/-- The cache gate falls through exactly when no present record passes
the validity test unforced. -/
lemma cacheGate_mustFetch_iff (existing : Option StoredOrder) (force_refresh : Bool)
    (order_id : String) (now : ℕ) :
    cacheGate existing force_refresh order_id now = .mustFetch ↔
      ¬ ∃ e, existing = some e ∧ force_refresh = false ∧ amount_valid e.amount = true := by
  cases existing with
  | none =>
    simp only [cacheGate]
    constructor
    · rintro - ⟨e, he, -⟩; exact Option.noConfusion he
    · intro _; trivial
  | some e =>
    simp only [cacheGate]
    by_cases hc : (amount_valid e.amount && !force_refresh) = true
    · rw [if_pos hc]
      rcases Bool.and_eq_true_iff.mp hc with ⟨h1, h2⟩
      have h2' : force_refresh = false := by
        cases force_refresh <;> simp_all
      constructor
      · intro h; exact CacheDecision.noConfusion h
      · intro h; exact absurd ⟨e, rfl, h2', h1⟩ h
    · rw [if_neg hc]
      constructor
      · rintro - ⟨e2, he2, hf, hv⟩
        injection he2 with he2'
        subst he2'
        exact hc (by rw [hv, hf]; rfl)
      · intro _; rfl

/-- C1: for every stored record and force-refresh flag, the cache gate
returns `useCache` with the reshaped stored record exactly when a record
exists, the refresh is not forced, and the stored amount — currency
glyphs and surrounding whitespace stripped — parses as a strictly
positive number; in every other case it decides `mustFetch`, in which
case the session proceeds to the live fetch. -/
theorem spec_C1 (existing : Option StoredOrder) (force_refresh : Bool) (order_id : String)
    (env : FetchEnv) :
    (∀ a : Option String, amount_valid a = true ↔
      ∃ q, pyFloatRat (trimL (stripCurrency (a.getD "").data)) = some q ∧ 0 < q) ∧
    (∀ r, cacheGate existing force_refresh order_id env.now = .useCache r ↔
      ∃ e, existing = some e ∧ force_refresh = false ∧ amount_valid e.amount = true ∧
        r = cacheRecord order_id e env.now) ∧
    (cacheGate existing force_refresh order_id env.now = .mustFetch ↔
      ¬ ∃ e, existing = some e ∧ force_refresh = false ∧ amount_valid e.amount = true) ∧
    (env.store = .ok existing →
      cacheGate existing force_refresh order_id env.now = .mustFetch →
      fetch_order_complete env order_id force_refresh = liveFetch env order_id) := by
  refine ⟨amount_valid_char, fun r => cacheGate_useCache_iff _ _ _ _ r,
    cacheGate_mustFetch_iff _ _ _ _, fun hs hg => ?_⟩
  simp only [fetch_order_complete, hs, hg]

/-- C1 instance: a cached order with amount `¥12.50` and no forced
refresh is served from the cache as the reshaped record. -/
theorem spec_C1_witness :
    cacheGate (some c1Order) false "A1" 0 = .useCache (cacheRecord "A1" c1Order 0) :=
  ((spec_C1 (some c1Order) false "A1" {}).2.1 (cacheRecord "A1" c1Order 0)).mpr
    ⟨c1Order, rfl, rfl, by decide, rfl⟩

/-- C6 (amended): an error raised by the cache lookup is caught by the
session's outer handler and the session returns absence; the live fetch
is not attempted. -/
theorem spec_C6 (env : FetchEnv) (order_id : String) (force_refresh : Bool)
    (h : env.store = .err) :
    fetch_order_complete env order_id force_refresh = none := by
  unfold fetch_order_complete
  rw [h]

/-- C6 instance: the store-erroring environment returns absence. -/
theorem spec_C6_witness : fetch_order_complete c6Env "C6" false = none :=
  spec_C6 c6Env "C6" false rfl

/-- C6 counterexample to the claim as stated: in `c6Env` the store read
raises and the live fetch would succeed, yet the session returns `none`
instead of proceeding to the live fetch and handing the caller that
record. -/
theorem spec_C6_counterexample :
    fetch_order_complete c6Env "C6" false = none ∧ (liveFetch c6Env "C6").isSome = true :=
  ⟨by decide, by decide⟩

/-- C7 (amended): a freshly fetched record defaults `quantity` to `"1"`
when the DOM scan yielded none (and `_parse_dom_content` itself defaults
it to `"1"` when no sku elements exist), but a cache-hit reconstruction
passes the stored quantity through with an empty-string default. -/
theorem spec_C7 (order_id : String) (env : FetchEnv) (api : ApiData) (dom : DomData)
    (e : StoredOrder) (now : ℕ) (p : DomPage) :
    (buildRecord order_id env api dom).quantity = dom.quantity.getD "1" ∧
    (dom.quantity = none → (buildRecord order_id env api dom).quantity = "1") ∧
    (p.earlyError = false → p.skuTexts = [] → (parse_dom_content p).quantity = some "1") ∧
    (cacheRecord order_id e now).quantity = e.quantity.getD "" ∧
    (e.quantity = none → (cacheRecord order_id e now).quantity = "") := by
  refine ⟨rfl, fun hq => ?_, fun hpe hsku => ?_, rfl, fun hq => ?_⟩
  · simp [buildRecord, hq]
  · simp [parse_dom_content, hpe, hsku]
  · simp [cacheRecord, hq]

/-- C7 instance: the fresh-record default and the cache-path default at
concrete inputs. -/
theorem spec_C7_witness :
    (buildRecord "W" {} {} {}).quantity = "1" ∧
    (cacheRecord "C7" c7Order 1).quantity = "" :=
  ⟨(spec_C7 "W" {} {} {} c7Order 1 {}).2.1 rfl,
   (spec_C7 "W" {} {} {} c7Order 1 {}).2.2.2.2 rfl⟩

/-- C7 counterexample to the claim as stated: the session serves
`c7Order` (valid amount, no stored quantity) from the cache, and the
returned record's quantity is the empty string, not `"1"`. -/
theorem spec_C7_counterexample :
    (fetch_order_complete c7Env "C7" false).map Record.quantity = some "" ∧
    c7Order.quantity = none ∧ ("" : String) ≠ "1" :=
  ⟨by decide, by decide, by decide⟩

/-- The scan loop only consults the per-node matches. -/
lemma foldl_scanStep (l : List TextNode) (acc : Option (String × ℕ)) :
    l.foldl scanStep acc = (l.filterMap nodeMatch).foldl pickBest acc := by
  induction l generalizing acc with
  | nil => rfl
  | cons n l ih =>
    cases h : nodeMatch n with
    | none => simp [scanStep, List.filterMap_cons, h, ih]
    | some m => simp [scanStep, List.filterMap_cons, h, ih]

/-- Folding `pickBest` from a seed yields a candidate of maximal score
drawn from the seed or the list. -/
lemma pickBest_fold_spec (ms : List (String × ℕ)) :
    ∀ b : String × ℕ, ∃ p, ms.foldl pickBest (some b) = some p ∧ (p = b ∨ p ∈ ms) ∧
      b.2 ≤ p.2 ∧ ∀ q ∈ ms, q.2 ≤ p.2 := by
  induction ms with
  | nil => exact fun b => ⟨b, rfl, Or.inl rfl, le_refl _, by simp⟩
  | cons m ms ih =>
    intro b
    by_cases h : b.2 < m.2
    · obtain ⟨p, hp, hmem, hle, hall⟩ := ih m
      refine ⟨p, ?_, ?_, ?_, ?_⟩
      · simpa [pickBest, h] using hp
      · right
        rcases hmem with h1 | h1
        · exact h1 ▸ List.mem_cons_self m ms
        · exact List.mem_cons_of_mem _ h1
      · exact le_trans (le_of_lt h) hle
      · intro q hq
        rcases List.mem_cons.mp hq with h1 | h1
        · exact h1 ▸ hle
        · exact hall q h1
    · obtain ⟨p, hp, hmem, hle, hall⟩ := ih b
      refine ⟨p, ?_, ?_, hle, ?_⟩
      · simpa [pickBest, h] using hp
      · rcases hmem with h1 | h1
        · exact Or.inl h1
        · exact Or.inr (List.mem_cons_of_mem _ h1)
      · intro q hq
        rcases List.mem_cons.mp hq with h1 | h1
        · subst h1
          exact le_trans (le_of_not_lt h) hle
        · exact hall q h1

/-- When at least one node matches, the heuristic returns the status of
a maximal-score match among the (bounded) scanned nodes. -/
lemma get_order_status_max (nodes : List TextNode)
    (h : (nodes.take 5000).filterMap nodeMatch ≠ []) :
    ∃ p ∈ (nodes.take 5000).filterMap nodeMatch,
      (∀ q ∈ (nodes.take 5000).filterMap nodeMatch, q.2 ≤ p.2) ∧
      get_order_status nodes = p.1 := by
  unfold get_order_status
  rw [foldl_scanStep]
  cases hms : (nodes.take 5000).filterMap nodeMatch with
  | nil => exact absurd hms h
  | cons m tl =>
    obtain ⟨p, hp, hmem, hle, hall⟩ := pickBest_fold_spec tl m
    have hfold : (m :: tl).foldl pickBest none = some p := by
      simpa [pickBest] using hp
    rw [hfold]
    refine ⟨p, ?_, ?_, rfl⟩
    · rcases hmem with h1 | h1
      · exact h1 ▸ List.mem_cons_self m tl
      · exact List.mem_cons_of_mem _ h1
    · intro q hq
      rcases List.mem_cons.mp hq with h1 | h1
      · exact h1 ▸ hle
      · exact hall q h1

/-- With no match among the scanned nodes, the heuristic returns
`unknown`. -/
lemma get_order_status_empty (nodes : List TextNode)
    (h : (nodes.take 5000).filterMap nodeMatch = []) :
    get_order_status nodes = "unknown" := by
  unfold get_order_status
  rw [foldl_scanStep, h]
  rfl

/-- A per-node match reports the status of a table row. -/
lemma nodeMatch_status_mem (n : TextNode) (m : String × ℕ) (h : nodeMatch n = some m) :
    ∃ e ∈ statusMap, m.1 = e.status := by
  unfold nodeMatch at h
  by_cases hl : (trimL n.text.data).length < 2 ∨ (trimL n.text.data).length > 100
  · rw [if_pos hl] at h
    exact Option.noConfusion h
  · rw [if_neg hl] at h
    cases hf : statusMap.find? (fun e => containsL (trimL n.text.data) e.phrase.data) with
    | none => rw [hf] at h; exact Option.noConfusion h
    | some e =>
      rw [hf] at h
      cases hp : n.parent with
      | none => rw [hp] at h; exact Option.noConfusion h
      | some st =>
        rw [hp] at h
        injection h with h'
        exact ⟨e, List.mem_of_find?_eq_some hf, by rw [← h']⟩

/-- The heuristic never returns the empty string: every table row's
status is nonempty and the fallback is `unknown`. -/
lemma get_order_status_ne_empty (nodes : List TextNode) : get_order_status nodes ≠ "" := by
  by_cases h : (nodes.take 5000).filterMap nodeMatch = []
  · rw [get_order_status_empty nodes h]
    decide
  · obtain ⟨p, hpmem, -, heq⟩ := get_order_status_max nodes h
    rw [heq]
    obtain ⟨m, hm⟩ := List.mem_filterMap.mp hpmem
    obtain ⟨e, he, hst⟩ := nodeMatch_status_mem m p hm.2
    rw [hst]
    have : ∀ e2 ∈ statusMap, e2.status ≠ "" := by decide
    exact this e he

/-- Pattern containment bounds the pattern's length from above. -/
lemma startsWithL_le : ∀ (l p : List Char), startsWithL l p = true → p.length ≤ l.length := by
  intro l
  induction l with
  | nil =>
    intro p h
    cases p with
    | nil => exact le_refl _
    | cons c ps => exact absurd h (by simp [startsWithL])
  | cons c l ih =>
    intro p h
    cases p with
    | nil => simp
    | cons x ps =>
      simp only [startsWithL, Bool.and_eq_true] at h
      simpa using ih ps h.2

/-- Substring containment bounds the pattern's length from above. -/
lemma containsL_le : ∀ (l p : List Char), containsL l p = true → p.length ≤ l.length := by
  intro l
  induction l with
  | nil => exact fun p h => startsWithL_le [] p h
  | cons c l ih =>
    intro p h
    simp only [containsL, Bool.or_eq_true] at h
    rcases h with h | h
    · exact startsWithL_le _ _ h
    · exact le_trans (ih p h) (by simp)

/-- C4: the heuristic scores each scanned node (among the first 5000)
whose trimmed text contains a ranked phrase as `basePriority + fontSize
+ (5 if fontWeight > 500)`, returns the status of a maximal-scoring
match, and returns `unknown` when no node matches; the lower length
bound of the source can never exclude a phrase-containing text (every
phrase has at least 3 characters); and the two synthetic documents
resolve to `cancelled` and `completed` respectively. -/
theorem spec_C4 (nodes : List TextNode) :
    ((nodes.take 5000).filterMap nodeMatch = [] → get_order_status nodes = "unknown") ∧
    (∀ m ∈ (nodes.take 5000).filterMap nodeMatch,
      ∃ p ∈ (nodes.take 5000).filterMap nodeMatch,
        m.2 ≤ p.2 ∧ (∀ q ∈ (nodes.take 5000).filterMap nodeMatch, q.2 ≤ p.2) ∧
          get_order_status nodes = p.1) ∧
    (∀ (n : TextNode) (st : NodeStyle) (e : StatusEntry), n.parent = some st →
      ¬((trimL n.text.data).length < 2 ∨ (trimL n.text.data).length > 100) →
      statusMap.find? (fun en => containsL (trimL n.text.data) en.phrase.data) = some e →
      nodeMatch n = some (e.status,
        e.priority + st.fontSize + (if st.fontWeight > 500 then 5 else 0))) ∧
    (∀ t : List Char, (∃ e ∈ statusMap, containsL t e.phrase.data = true) →
      ¬ t.length < 2) ∧
    get_order_status [⟨"买家取消了订单", some ⟨14, 400⟩⟩] = "cancelled" ∧
    get_order_status [⟨"处理中", some ⟨12, 400⟩⟩, ⟨"交易成功", some ⟨24, 600⟩⟩] = "completed" := by
  refine ⟨get_order_status_empty nodes, ?_, ?_, ?_, by decide, by decide⟩
  · intro m hm
    have hne : (nodes.take 5000).filterMap nodeMatch ≠ [] := by
      intro h
      rw [h] at hm
      exact absurd hm (List.not_mem_nil m)
    obtain ⟨p, hpmem, hall, heq⟩ := get_order_status_max nodes hne
    exact ⟨p, hpmem, hall m hm, hall, heq⟩
  · intro n st e hp hl hf
    simp only [nodeMatch]
    rw [if_neg hl]
    simp only [hf, hp]
  · rintro t ⟨e, he, hc⟩
    have h1 : 3 ≤ e.phrase.data.length := by
      have hall : ∀ e2 ∈ statusMap, 3 ≤ e2.phrase.data.length := by decide
      exact hall e he
    have h2 := containsL_le t e.phrase.data hc
    omega

/-- C4 instance: in the single-node cancellation document the match
scores `100 + 14` and the heuristic returns its status. -/
theorem spec_C4_witness :
    ∃ p ∈ (([⟨"买家取消了订单", some ⟨14, 400⟩⟩] : List TextNode).take 5000).filterMap nodeMatch,
      (("cancelled", 114) : String × ℕ).2 ≤ p.2 ∧
      (∀ q ∈ (([⟨"买家取消了订单", some ⟨14, 400⟩⟩] : List TextNode).take 5000).filterMap
        nodeMatch, q.2 ≤ p.2) ∧
      get_order_status [⟨"买家取消了订单", some ⟨14, 400⟩⟩] = p.1 :=
  (spec_C4 [⟨"买家取消了订单", some ⟨14, 400⟩⟩]).2.1 ("cancelled", 114) (by decide)

/-- C2: in the fused record the `order_status` equals the DOM status
when that status is present (truthy) and not `unknown`, and the API
status otherwise; both raw signals land in the `api_status` /
`dom_status` diagnostics regardless of the winner; and the DOM scan
never produces the empty string, so presence coincides with truthiness
on every reachable input. -/
theorem spec_C2 (order_id : String) (env : FetchEnv) (api : ApiData) (dom : DomData) :
    (buildRecord order_id env api dom).api_status = some (api.order_status.getD "unknown") ∧
    (∀ s, dom.order_status_dom = some s → s ≠ "" →
      (buildRecord order_id env api dom).dom_status = some s) ∧
    (∀ s, dom.order_status_dom = some s → s ≠ "" → s ≠ "unknown" →
      (buildRecord order_id env api dom).order_status = s) ∧
    (dom.order_status_dom = none ∨ dom.order_status_dom = some "unknown" →
      (buildRecord order_id env api dom).order_status = api.order_status.getD "unknown") ∧
    (∀ p : DomPage, p.earlyError = false →
      (parse_dom_content p).order_status_dom = some (get_order_status p.statusNodes)) ∧
    (∀ nodes : List TextNode, get_order_status nodes ≠ "") := by
  refine ⟨rfl, ?_, ?_, ?_, ?_, get_order_status_ne_empty⟩
  · intro s hs hne
    simp only [buildRecord, hs]
    rw [if_pos hne]
  · intro s hs hne hnu
    simp only [buildRecord, hs]
    rw [if_pos ⟨hne, hnu⟩]
  · rintro (h | h) <;> simp [buildRecord, h]
  · intro p hpe
    simp [parse_dom_content, hpe]

/-- C2 instance: DOM `shipped` beats API `pending_ship`, and both
signals are recorded. -/
theorem spec_C2_witness :
    (buildRecord "W2" {} c2Api c2Dom).order_status = "shipped" ∧
    (buildRecord "W2" {} c2Api c2Dom).dom_status = some "shipped" ∧
    (buildRecord "W2" {} c2Api c2Dom).api_status = some "pending_ship" :=
  ⟨(spec_C2 "W2" {} c2Api c2Dom).2.2.1 "shipped" rfl (by decide) (by decide),
   (spec_C2 "W2" {} c2Api c2Dom).2.1 "shipped" rfl (by decide),
   (spec_C2 "W2" {} c2Api c2Dom).1⟩

/-- A successful live fetch returns exactly the fused fresh record. -/
lemma liveFetch_some (env : FetchEnv) (order_id : String) (r : Record)
    (h : liveFetch env order_id = some r) :
    r = buildRecord order_id env (apiDataOfEnv env) (parse_dom_content env.page) := by
  unfold liveFetch at h
  by_cases hb : env.browserOk = false
  · rw [if_pos hb] at h
    exact Option.noConfusion h
  · rw [if_neg hb] at h
    cases hn : env.nav with
    | none => rw [hn] at h; exact Option.noConfusion h
    | some st =>
      simp only [hn] at h
      by_cases hs : st ≠ 200
      · rw [if_pos hs] at h
        exact Option.noConfusion h
      · rw [if_neg hs] at h
        injection h with h'
        exact h'.symm

/-- Every record a session returns is either a cache reshape or a fused
fresh record. -/
lemma fetch_order_complete_shape (env : FetchEnv) (order_id : String) (force_refresh : Bool)
    (r : Record) (h : fetch_order_complete env order_id force_refresh = some r) :
    (∃ e, env.store = .ok (some e) ∧ r = cacheRecord order_id e env.now) ∨
      r = buildRecord order_id env (apiDataOfEnv env) (parse_dom_content env.page) := by
  unfold fetch_order_complete at h
  cases hs : env.store with
  | err => rw [hs] at h; exact Option.noConfusion h
  | ok existing =>
    simp only [hs] at h
    cases hg : cacheGate existing force_refresh order_id env.now with
    | useCache r0 =>
      simp only [hg] at h
      injection h with h'
      obtain ⟨e, he, -, -, hr⟩ :=
        (cacheGate_useCache_iff existing force_refresh order_id env.now r0).mp hg
      refine Or.inl ⟨e, ?_, by rw [← h', hr]⟩
      subst he
      first
      | exact hs
      | rfl

    | mustFetch =>
      simp only [hg] at h
      exact Or.inr (liveFetch_some env order_id r h)

/-- C10: cache-path records carry `from_cache = true` and neither
diagnostic key; fresh records carry `from_cache = false` and both keys,
with `not_detected` standing in when the DOM scan produced no status
entry; and every record a session returns is of one of these two
shapes. -/
theorem spec_C10 (order_id : String) (e : StoredOrder) (now : ℕ) (env : FetchEnv)
    (api : ApiData) (dom : DomData) (force_refresh : Bool) :
    ((cacheRecord order_id e now).from_cache = true ∧
      (cacheRecord order_id e now).api_status = none ∧
      (cacheRecord order_id e now).dom_status = none) ∧
    ((buildRecord order_id env api dom).from_cache = false ∧
      (buildRecord order_id env api dom).api_status.isSome = true ∧
      (buildRecord order_id env api dom).dom_status.isSome = true ∧
      (dom.order_status_dom = none →
        (buildRecord order_id env api dom).dom_status = some "not_detected")) ∧
    (∀ r, fetch_order_complete env order_id force_refresh = some r →
      (r.from_cache = true ∧ r.api_status = none ∧ r.dom_status = none) ∨
      (r.from_cache = false ∧ r.api_status.isSome = true ∧ r.dom_status.isSome = true)) := by
  refine ⟨⟨rfl, rfl, rfl⟩, ⟨rfl, rfl, rfl, ?_⟩, ?_⟩
  · intro hd
    simp [buildRecord, hd]
  · intro r hr
    rcases fetch_order_complete_shape env order_id force_refresh r hr with ⟨e2, -, he2⟩ | hb
    · subst he2
      exact Or.inl ⟨rfl, rfl, rfl⟩
    · subst hb
      exact Or.inr ⟨rfl, rfl, rfl⟩

/-- C10 instance: a fresh fetch against the empty page yields a record
with both diagnostics, DOM side `unknown` (the scan ran and found
nothing), `from_cache = false`. -/
theorem spec_C10_witness :
    ((buildRecord "C10" c10Env (apiDataOfEnv c10Env)
        (parse_dom_content c10Env.page)).from_cache = true ∧
      (buildRecord "C10" c10Env (apiDataOfEnv c10Env)
        (parse_dom_content c10Env.page)).api_status = none ∧
      (buildRecord "C10" c10Env (apiDataOfEnv c10Env)
        (parse_dom_content c10Env.page)).dom_status = none) ∨
    ((buildRecord "C10" c10Env (apiDataOfEnv c10Env)
        (parse_dom_content c10Env.page)).from_cache = false ∧
      (buildRecord "C10" c10Env (apiDataOfEnv c10Env)
        (parse_dom_content c10Env.page)).api_status.isSome = true ∧
      (buildRecord "C10" c10Env (apiDataOfEnv c10Env)
        (parse_dom_content c10Env.page)).dom_status.isSome = true) :=
  (spec_C10 "C10" { order_id := "Z" } 0 c10Env {} {} false).2.2
    (buildRecord "C10" c10Env (apiDataOfEnv c10Env) (parse_dom_content c10Env.page))
    (by decide)

/-- C3: the bounded batch runner returns exactly one entry per requested
order id, in input order; a raised exception becomes a structured
failure entry carrying that order id and message, and each entry depends
only on its own order's task, so siblings are unaffected. -/
theorem spec_C3 (tasks : List OrderTask) (force_refresh : Bool) :
    (process_orders_batch tasks force_refresh).length = tasks.length ∧
    (∀ i (h : i < tasks.length),
      (process_orders_batch tasks force_refresh)[i]? =
        some (perOrderEntry tasks[i] force_refresh)) ∧
    (∀ i (h : i < tasks.length) (m : String), tasks[i].fate = .raised m →
      (process_orders_batch tasks force_refresh)[i]? =
        some (.failure tasks[i].oid m)) ∧
    (∀ i (h : i < tasks.length) (r : Record), tasks[i].fate = .normal →
      fetch_order_complete tasks[i].env tasks[i].oid force_refresh = some r →
      (process_orders_batch tasks force_refresh)[i]? = some (.success r)) := by
  have hpt : ∀ i (h : i < tasks.length),
      (process_orders_batch tasks force_refresh)[i]? =
        some (perOrderEntry tasks[i] force_refresh) := by
    intro i h
    unfold process_orders_batch
    rw [List.getElem?_map, List.getElem?_eq_getElem h]
    rfl
  refine ⟨by simp [process_orders_batch], hpt, ?_, ?_⟩
  · intro i h m hf
    rw [hpt i h]
    simp only [perOrderEntry, hf]
  · intro i h r hf hr
    rw [hpt i h]
    simp only [perOrderEntry, hf, hr]

/-- C3 instance: in the `[A, B, C]` batch whose middle task raises
mid-navigation, entry 1 is the failure entry for `B` while entries 0 and
2 are the cache successes of `A` and `C`. -/
theorem spec_C3_witness :
    (process_orders_batch c3Tasks false)[1]? = some (.failure "B" "mid-navigation") ∧
    (process_orders_batch c3Tasks false)[0]? =
      some (.success (cacheRecord "A" c3OrderA 11)) ∧
    (process_orders_batch c3Tasks false)[2]? =
      some (.success (cacheRecord "C" c3OrderC 13)) :=
  ⟨(spec_C3 c3Tasks false).2.2.1 1 (by decide) "mid-navigation" (by decide),
   (spec_C3 c3Tasks false).2.2.2 0 (by decide) (cacheRecord "A" c3OrderA 11)
     (by decide) (by decide),
   (spec_C3 c3Tasks false).2.2.2 2 (by decide) (cacheRecord "C" c3OrderC 13)
     (by decide) (by decide)⟩

/-- A successful association-list lookup yields a stored pair. -/
lemma lookup_mem : ∀ (l : List (String × String)) (k v : String),
    l.lookup k = some v → (k, v) ∈ l := by
  intro l
  induction l with
  | nil => intro k v h; exact Option.noConfusion h
  | cons p l ih =>
    intro k v h
    obtain ⟨a, b⟩ := p
    simp only [List.lookup] at h
    by_cases hk : (k == a) = true
    · simp only [hk] at h
      injection h with h'
      have hka : k = a := eq_of_beq hk
      subst hka
      subst h'
      exact List.mem_cons_self _ _
    · rw [Bool.not_eq_true] at hk
      simp only [hk] at h
      exact List.mem_cons_of_mem _ (ih k v h)

/-- Whatever the code, the table lookup with its `unknown` default lands
in the closed enum. -/
lemma lookup_getD_mem_enum (code : String) :
    (STATUS_CODE_MAP.lookup code).getD "unknown" ∈ statusEnum := by
  cases h : STATUS_CODE_MAP.lookup code with
  | none => simp [statusEnum]
  | some v =>
    have hm := lookup_mem STATUS_CODE_MAP code v h
    have hall : ∀ pr ∈ STATUS_CODE_MAP, pr.2 ∈ statusEnum := by decide
    simpa using hall (code, v) hm

/-- C5 (amended): the resolved status is in the closed enum whenever the
raw provider status is a number, a digit string, or already an enum
member — with unmapped codes resolving to `unknown` — but a non-digit
string outside the enum is passed through verbatim, so the enum is not
closed in general. -/
theorem spec_C5 (v : StatusVal) :
    (∀ n : ℤ, v = .num n → resolveApiStatus v ∈ statusEnum) ∧
    (∀ s : String, v = .str s → isDigitStr s = true → resolveApiStatus v ∈ statusEnum) ∧
    (∀ s : String, v = .str s → s ∈ statusEnum → resolveApiStatus v = s) ∧
    (∀ s : String, v = .str s → s ∉ statusEnum → isDigitStr s = false →
      resolveApiStatus v = s) ∧
    (∀ s : String, v = .str s → s ∉ statusEnum → isDigitStr s = true →
      STATUS_CODE_MAP.lookup s = none → resolveApiStatus v = "unknown") := by
  refine ⟨?_, ?_, ?_, ?_, ?_⟩
  · rintro n rfl
    exact lookup_getD_mem_enum _
  · rintro s rfl hd
    simp only [resolveApiStatus]
    by_cases hm : s ∈ statusEnum
    · rw [if_pos hm]
      exact hm
    · rw [if_neg hm, if_pos hd]
      exact lookup_getD_mem_enum s
  · rintro s rfl hm
    simp only [resolveApiStatus]
    rw [if_pos hm]
  · rintro s rfl hm hd
    simp only [resolveApiStatus]
    rw [if_neg hm, if_neg (by simp [hd])]
  · rintro s rfl hm hd hl
    simp only [resolveApiStatus]
    rw [if_neg hm, if_pos hd, hl]
    rfl

/-- C5 instance: the unmapped digit code `5` resolves to `unknown`, the
numeric code `11` and the digit string `3` resolve into the enum. -/
theorem spec_C5_witness :
    resolveApiStatus (.str "5") = "unknown" ∧
    resolveApiStatus (.num 11) ∈ statusEnum ∧
    resolveApiStatus (.str "3") ∈ statusEnum :=
  ⟨(spec_C5 (.str "5")).2.2.2.2 "5" rfl (by decide) (by decide) (by decide),
   (spec_C5 (.num 11)).1 11 rfl,
   (spec_C5 (.str "3")).2.1 "3" rfl (by decide)⟩

/-- C5 counterexample to the claim as stated: a session whose payload
carries the non-digit raw status `WEIRD` (and whose DOM scan errors)
returns a record with `order_status = "WEIRD"`, which is not a member of
the closed enum. -/
theorem spec_C5_counterexample :
    (fetch_order_complete c5Env "C5" false).map Record.order_status = some "WEIRD" ∧
    "WEIRD" ∉ statusEnum :=
  ⟨by decide, by decide⟩

/-- The chunk count is the ceiling division of the input length. -/
lemma chunks_length (tasks : List OrderTask) (S : ℕ) :
    (pyChunks tasks S).length = (tasks.length + S - 1) / S := by
  unfold pyChunks
  rw [List.length_map, List.length_range]

/-- Ceiling division counts one chunk plus the chunks of the rest. -/
lemma ceil_div_succ (N S : ℕ) (hS : 0 < S) (hN : 0 < N) :
    (N + S - 1) / S = (N - S + S - 1) / S + 1 := by
  have h1 : N + S - 1 = (N - 1) + S := by omega
  have h2 : (N - S + S - 1) / S = (N - 1) / S := by
    rcases le_or_lt S N with h | h
    · have h3 : N - S + S - 1 = N - 1 := by omega
      rw [h3]
    · have ha : N - S = 0 := by omega
      rw [ha, Nat.div_eq_of_lt (by omega), Nat.div_eq_of_lt (by omega)]
  rw [h1, Nat.add_div_right _ hS, h2]

/-- Every chunk index addresses a position inside the input. -/
lemma lt_ceil_mul (k N S : ℕ) (hS : 0 < S) (h : k < (N + S - 1) / S) : k * S < N := by
  rcases Nat.eq_zero_or_pos N with h0 | h0
  · subst h0
    rw [Nat.zero_add, Nat.div_eq_of_lt (by omega)] at h
    exact absurd h (Nat.not_lt_zero k)
  · have h2 : (k + 1) * S ≤ ((N + S - 1) / S) * S := Nat.mul_le_mul_right S h
    have h3 : ((N + S - 1) / S) * S ≤ N + S - 1 := Nat.div_mul_le_self _ _
    have h4 : (k + 1) * S = k * S + S := by ring
    rw [h4] at h2
    have h5 : k * S + S ≤ N + S - 1 := le_trans h2 h3
    set m := k * S with hm
    omega

/-- The empty input produces no chunks. -/
lemma chunks_nil (S : ℕ) : pyChunks [] S = [] := by
  unfold pyChunks
  have h0 : ((List.length ([] : List OrderTask)) + S - 1) / S = 0 := by
    simp only [List.length_nil, Nat.zero_add]
    rcases Nat.eq_zero_or_pos S with h | h
    · subst h; rfl
    · exact Nat.div_eq_of_lt (by omega)
  rw [h0]
  rfl

/-- On a nonempty input the chunk list starts with the first slice. -/
lemma chunks_front (tasks : List OrderTask) (S : ℕ) (hS : 0 < S) (h : tasks ≠ []) :
    pyChunks tasks S = tasks.take S :: pyChunks (tasks.drop S) S := by
  unfold pyChunks
  have hN : 0 < tasks.length := List.length_pos.mpr h
  have hsucc : (tasks.length + S - 1) / S = ((tasks.drop S).length + S - 1) / S + 1 := by
    rw [List.length_drop]
    exact ceil_div_succ tasks.length S hS hN
  rw [hsucc, List.range_succ_eq_map, List.map_cons, List.map_map]
  congr 1
  · simp
  · apply List.map_congr_left
    intro k hk
    simp only [Function.comp_apply]
    have h5 : Nat.succ k * S = S + k * S := by
      rw [Nat.succ_mul]
      exact Nat.add_comm _ _
    rw [h5, ← List.drop_drop]

/-- Folding with a pair of appenders accumulates the two joined maps. -/
lemma foldl_pair_append {α β : Type} (f : ℕ → List α) (g : ℕ → List β) :
    ∀ (l : List ℕ) (a : List α) (b : List β),
      l.foldl (fun acc k => (acc.1 ++ f k, acc.2 ++ g k)) (a, b) =
        (a ++ (l.map f).flatten, b ++ (l.map g).flatten) := by
  intro l
  induction l with
  | nil => intro a b; simp
  | cons k l ih =>
    intro a b
    simp only [List.foldl_cons, List.map_cons, List.flatten_cons]
    rw [ih]
    simp [List.append_assoc]

/-- The chunked runner as a pair of joined per-chunk maps. -/
lemma inBatches_as_join (tasks : List OrderTask) (S : ℕ) (d : ℚ) :
    process_orders_in_batches tasks S d =
      (((List.range ((tasks.length + S - 1) / S)).map
          (fun k => process_orders_batch ((tasks.drop (k * S)).take S) false)).flatten,
       ((List.range ((tasks.length + S - 1) / S)).map
          (fun k => BatchEvent.runBatch (((tasks.drop (k * S)).take S).map OrderTask.oid) ::
            (if k < (tasks.length + S - 1) / S - 1 then [BatchEvent.delay d] else []))).flatten) := by
  unfold process_orders_in_batches
  dsimp only
  rw [foldl_pair_append]
  simp

/-- The chunked runner does no work on the empty input. -/
lemma inBatches_nil (S : ℕ) (d : ℚ) : process_orders_in_batches [] S d = ([], []) := by
  rw [inBatches_as_join]
  have h0 : ((List.length ([] : List OrderTask)) + S - 1) / S = 0 := by
    simp only [List.length_nil, Nat.zero_add]
    rcases Nat.eq_zero_or_pos S with h | h
    · subst h; rfl
    · exact Nat.div_eq_of_lt (by omega)
  rw [h0]
  rfl

/-- One step of the chunked runner: process the first slice, emit its
run event and — when further chunks exist — one delay, then continue on
the rest. -/
lemma inBatches_cons (tasks : List OrderTask) (S : ℕ) (d : ℚ) (hS : 0 < S)
    (h : tasks ≠ []) :
    process_orders_in_batches tasks S d =
      (process_orders_batch (tasks.take S) false ++
        (process_orders_in_batches (tasks.drop S) S d).1,
       BatchEvent.runBatch ((tasks.take S).map OrderTask.oid) ::
        ((if 0 < ((tasks.drop S).length + S - 1) / S then [BatchEvent.delay d] else []) ++
          (process_orders_in_batches (tasks.drop S) S d).2)) := by
  have hN : 0 < tasks.length := List.length_pos.mpr h
  have hsucc : (tasks.length + S - 1) / S = ((tasks.drop S).length + S - 1) / S + 1 := by
    rw [List.length_drop]
    exact ceil_div_succ tasks.length S hS hN
  rw [inBatches_as_join tasks S d, inBatches_as_join (tasks.drop S) S d, hsucc,
    List.range_succ_eq_map]
  simp only [List.map_cons, List.flatten_cons, List.map_map, Nat.add_sub_cancel,
    Nat.zero_mul, List.drop_zero, List.cons_append]
  refine Prod.ext_iff.mpr ⟨?_, ?_⟩
  · have hfun : ∀ k ∈ List.range (((tasks.drop S).length + S - 1) / S),
        ((fun k => process_orders_batch ((tasks.drop (k * S)).take S) false) ∘ Nat.succ) k =
          (fun k => process_orders_batch (((tasks.drop S).drop (k * S)).take S) false) k := by
      intro k hk
      simp only [Function.comp_apply]
      have h5 : Nat.succ k * S = S + k * S := by
        rw [Nat.succ_mul]
        exact Nat.add_comm _ _
      rw [h5, ← List.drop_drop]
    rw [List.map_congr_left hfun]
  · have hfun : ∀ k ∈ List.range (((tasks.drop S).length + S - 1) / S),
        ((fun k => BatchEvent.runBatch (((tasks.drop (k * S)).take S).map OrderTask.oid) ::
            (if k < ((tasks.drop S).length + S - 1) / S then [BatchEvent.delay d] else [])) ∘
          Nat.succ) k =
          (fun k => BatchEvent.runBatch ((((tasks.drop S).drop (k * S)).take S).map
              OrderTask.oid) ::
            (if k < ((tasks.drop S).length + S - 1) / S - 1 then [BatchEvent.delay d]
             else [])) k := by
      intro k hk
      simp only [Function.comp_apply]
      have h5 : Nat.succ k * S = S + k * S := by
        rw [Nat.succ_mul]
        exact Nat.add_comm _ _
      rw [h5, ← List.drop_drop]
      congr 1
      exact if_congr (by omega) rfl rfl
    rw [List.map_congr_left hfun]

/-- The chunked runner equals the recursive chunk-list view. -/
lemma inBatches_eq_runChunks_aux (S : ℕ) (d : ℚ) (hS : 0 < S) :
    ∀ (fuel : ℕ) (tasks : List OrderTask), tasks.length ≤ fuel →
      process_orders_in_batches tasks S d = runChunks (pyChunks tasks S) d := by
  intro fuel
  induction fuel with
  | zero =>
    intro tasks hlen
    have hnil : tasks = [] := List.eq_nil_of_length_eq_zero (Nat.le_zero.mp hlen)
    subst hnil
    rw [inBatches_nil, chunks_nil]
    rfl
  | succ fuel ih =>
    intro tasks hlen
    by_cases hnil : tasks = []
    · subst hnil
      rw [inBatches_nil, chunks_nil]
      rfl
    · rw [inBatches_cons tasks S d hS hnil, chunks_front tasks S hS hnil]
      have hdrop : (tasks.drop S).length ≤ fuel := by
        rw [List.length_drop]
        have := List.length_pos.mpr hnil
        omega
      rw [ih (tasks.drop S) hdrop]
      cases hc : pyChunks (tasks.drop S) S with
      | nil =>
        have hn0 : ((tasks.drop S).length + S - 1) / S = 0 := by
          have hl := chunks_length (tasks.drop S) S
          rw [hc] at hl
          simpa using hl.symm
        rw [hn0]
        simp [runChunks]
      | cons c2 rest =>
        have hn0 : 0 < ((tasks.drop S).length + S - 1) / S := by
          have hl := chunks_length (tasks.drop S) S
          rw [hc] at hl
          simp only [List.length_cons] at hl
          omega
        rw [if_pos hn0]
        simp [runChunks]

/-- Wrapper for `inBatches_eq_runChunks_aux` at the exact length. -/
lemma inBatches_eq_runChunks (tasks : List OrderTask) (S : ℕ) (d : ℚ) (hS : 0 < S) :
    process_orders_in_batches tasks S d = runChunks (pyChunks tasks S) d :=
  inBatches_eq_runChunks_aux S d hS tasks.length tasks (le_refl _)

/-- The chunk-list view's entries are the concatenated per-chunk batch
results. -/
lemma runChunks_entries (d : ℚ) : ∀ (chunks : List (List OrderTask)),
    (runChunks chunks d).1 = (chunks.map (fun c => process_orders_batch c false)).flatten := by
  intro chunks
  induction chunks with
  | nil => rfl
  | cons c tl ih =>
    cases tl with
    | nil => simp [runChunks]
    | cons c2 rest =>
      simp only [runChunks]
      rw [ih]
      simp

/-- The chunk-list view's event trace is the reference interleaving. -/
lemma runChunks_events (d : ℚ) : ∀ (chunks : List (List OrderTask)),
    (runChunks chunks d).2 = eventsSpec (chunks.map (fun c => c.map OrderTask.oid)) d := by
  intro chunks
  induction chunks with
  | nil => rfl
  | cons c tl ih =>
    cases tl with
    | nil => rfl
    | cons c2 rest =>
      simp only [runChunks]
      rw [ih]
      simp [eventsSpec]

/-- The reference interleaving holds one delay fewer than chunks. -/
lemma eventsSpec_delays (d : ℚ) : ∀ (cs : List (List String)),
    (eventsSpec cs d).countP isDelayEvent = cs.length - 1 := by
  intro cs
  induction cs with
  | nil => rfl
  | cons c tl ih =>
    cases tl with
    | nil => rfl
    | cons c2 rest =>
      simp [eventsSpec, List.countP_cons, isDelayEvent, List.length_cons] at ih ⊢
      omega

/-- Joining the chunks restores the input list. -/
lemma chunks_join_aux (S : ℕ) (hS : 0 < S) :
    ∀ (fuel : ℕ) (tasks : List OrderTask), tasks.length ≤ fuel →
      (pyChunks tasks S).flatten = tasks := by
  intro fuel
  induction fuel with
  | zero =>
    intro tasks hlen
    have hnil : tasks = [] := List.eq_nil_of_length_eq_zero (Nat.le_zero.mp hlen)
    subst hnil
    rw [chunks_nil]
    rfl
  | succ fuel ih =>
    intro tasks hlen
    by_cases hnil : tasks = []
    · subst hnil
      rw [chunks_nil]
      rfl
    · rw [chunks_front tasks S hS hnil]
      simp only [List.flatten_cons]
      rw [ih (tasks.drop S) ?_]
      · exact List.take_append_drop S tasks
      · rw [List.length_drop]
        have := List.length_pos.mpr hnil
        omega

/-- Wrapper for `chunks_join_aux` at the exact length. -/
lemma chunks_join (tasks : List OrderTask) (S : ℕ) (hS : 0 < S) :
    (pyChunks tasks S).flatten = tasks :=
  chunks_join_aux S hS tasks.length tasks (le_refl _)

/-- Every chunk is a nonempty slice of at most the chunk size. -/
lemma chunks_mem_size (tasks : List OrderTask) (S : ℕ) (hS : 0 < S) :
    ∀ c ∈ pyChunks tasks S, c.length ≤ S ∧ c ≠ [] := by
  intro c hc
  unfold pyChunks at hc
  obtain ⟨k, hk, hck⟩ := List.mem_map.mp hc
  have hkr : k < (tasks.length + S - 1) / S := List.mem_range.mp hk
  have hlt : k * S < tasks.length := lt_ceil_mul k tasks.length S hS hkr
  subst hck
  set m := k * S with hm
  refine ⟨List.length_take_le _ _, ?_⟩
  have hpos : 0 < ((tasks.drop m).take S).length := by
    rw [List.length_take, List.length_drop]
    exact lt_min_iff.mpr ⟨hS, by omega⟩
  exact List.length_pos.mp hpos

/-- Every chunk but the last has exactly the chunk size. -/
lemma chunks_dropLast_size (tasks : List OrderTask) (S : ℕ) (hS : 0 < S) :
    ∀ c ∈ (pyChunks tasks S).dropLast, c.length = S := by
  intro c hc
  unfold pyChunks at hc
  cases hn : (tasks.length + S - 1) / S with
  | zero =>
    rw [hn] at hc
    simp at hc
  | succ m =>
    rw [hn, List.range_succ, List.map_append] at hc
    simp only [List.map_cons, List.map_nil] at hc
    rw [List.dropLast_concat] at hc
    obtain ⟨k, hk, hck⟩ := List.mem_map.mp hc
    have hkm : k < m := List.mem_range.mp hk
    have hlt : (k + 1) * S < tasks.length := by
      refine lt_ceil_mul (k + 1) tasks.length S hS ?_
      rw [hn]
      omega
    have h4 : (k + 1) * S = k * S + S := by ring
    rw [h4] at hlt
    subst hck
    set m2 := k * S with hm2
    rw [List.length_take, List.length_drop]
    exact Nat.min_eq_left (by omega)

/-- Mapping over the joined chunks maps over the restored input. -/
lemma join_map_map {α β : Type} (f : α → β) :
    ∀ (L : List (List α)), (L.map (fun c => c.map f)).flatten = L.flatten.map f := by
  intro L
  induction L with
  | nil => rfl
  | cons c tl ih =>
    simp only [List.map_cons, List.flatten_cons, List.map_append]
    rw [ih]

/-- C8: with a positive chunk size, the chunked runner partitions the
input into ceiling-division many consecutive chunks (all of the chunk
size except a possibly smaller, nonempty final chunk), runs them
sequentially through the bounded batch runner, emits exactly one delay
between consecutive chunks and none after the last, and returns the
concatenation of the chunk results in input order. -/
theorem spec_C8 (tasks : List OrderTask) (S : ℕ) (d : ℚ) (hS : 0 < S) :
    (pyChunks tasks S).length = (tasks.length + S - 1) / S ∧
    (pyChunks tasks S).flatten = tasks ∧
    (∀ c ∈ (pyChunks tasks S).dropLast, c.length = S) ∧
    (∀ c ∈ pyChunks tasks S, c.length ≤ S ∧ c ≠ []) ∧
    (process_orders_in_batches tasks S d).1 =
      ((pyChunks tasks S).map (fun c => process_orders_batch c false)).flatten ∧
    (process_orders_in_batches tasks S d).1 = process_orders_batch tasks false ∧
    (process_orders_in_batches tasks S d).2 =
      eventsSpec ((pyChunks tasks S).map (fun c => c.map OrderTask.oid)) d ∧
    ((process_orders_in_batches tasks S d).2).countP isDelayEvent =
      (tasks.length + S - 1) / S - 1 := by
  have hmaster := inBatches_eq_runChunks tasks S d hS
  have hjoin := chunks_join tasks S hS
  refine ⟨chunks_length tasks S, hjoin, chunks_dropLast_size tasks S hS,
    chunks_mem_size tasks S hS, ?_, ?_, ?_, ?_⟩
  · rw [hmaster, runChunks_entries]
  · rw [hmaster, runChunks_entries]
    unfold process_orders_batch
    rw [join_map_map, hjoin]
  · rw [hmaster, runChunks_events]
  · rw [hmaster, runChunks_events, eventsSpec_delays, List.length_map, chunks_length]

/-- C8 instance: 25 orders with chunk size 10 give chunks of sizes
10, 10, 5 and exactly two inter-chunk delays. -/
theorem spec_C8_witness :
    (pyChunks c8Tasks 10).map List.length = [10, 10, 5] ∧
    ((process_orders_in_batches c8Tasks 10 2).2).countP isDelayEvent = 2 :=
  ⟨by decide, (spec_C8 c8Tasks 10 2 (by decide)).2.2.2.2.2.2.2⟩

/-- C9: the chunked entry point passes no force-refresh flag, so every
session it spawns runs with `force_refresh = false`: its result list is
the per-task entries at `false`, and any task whose store holds a record
with a valid amount yields that record's cache reshape
(`from_cache = true`) — it is never forcibly re-fetched. -/
theorem spec_C9 (tasks : List OrderTask) (S : ℕ) (d : ℚ) (hS : 0 < S) :
    (process_orders_in_batches tasks S d).1 =
      tasks.map (fun t => perOrderEntry t false) ∧
    (∀ t ∈ tasks, ∀ e : StoredOrder, t.fate = .normal → t.env.store = .ok (some e) →
      amount_valid e.amount = true →
      perOrderEntry t false = .success (cacheRecord t.oid e t.env.now) ∧
      (cacheRecord t.oid e t.env.now).from_cache = true) := by
  constructor
  · rw [inBatches_eq_runChunks tasks S d hS, runChunks_entries]
    unfold process_orders_batch
    rw [join_map_map, chunks_join tasks S hS]
  · intro t ht e hf hs hv
    refine ⟨?_, rfl⟩
    simp only [perOrderEntry, hf]
    simp only [fetch_order_complete, hs]
    have hg : cacheGate (some e) false t.oid t.env.now =
        .useCache (cacheRecord t.oid e t.env.now) := by
      simp only [cacheGate]
      rw [if_pos (by rw [hv]; rfl)]
    simp only [hg]

/-- C9 instance: through the chunked interface the stored order `D`
with amount `¥8` is served from cache. -/
theorem spec_C9_witness :
    perOrderEntry c9Task false = .success (cacheRecord "D" c9Order 4) ∧
    (cacheRecord "D" c9Order 4).from_cache = true :=
  (spec_C9 [c9Task] 10 2 (by decide)).2 c9Task (by decide) c9Order rfl rfl (by decide)

end OrderFetcher
